import Mathlib

/-!
Shallow embedding of the versioned data-access layer of this repository
(`kedro/io/pickle_s3.py` and the versioning core it relies on).

The concrete dataset class `PickleS3DataSet` is present in the source and is
embedded from it directly.  The versioning core (`VersionID` generation and
parsing, `VersionResolver`, `VersionedDataHandle` caching) is not part of the
source tree available here, so those definitions are modelled from the spec's
description and are marked as such in their doc comments.
-/

namespace KedroIO

/-! ## String order utilities

The spec orders version identifiers by plain string comparison.  We use an
executable lexicographic comparison on the character lists and prove it
equivalent to the `<` / `≤` order on `String`. -/

/-- Executable lexicographic comparison of character lists, agreeing with the
strict order on `String` (see `strLt_iff`). -/
def charListLt : List Char → List Char → Bool
  | [], [] => false
  | [], _ :: _ => true
  | _ :: _, [] => false
  | a :: as, b :: bs => if a < b then true else if b < a then false else charListLt as bs

theorem charListLt_iff_lex : ∀ l₁ l₂ : List Char, charListLt l₁ l₂ = true ↔ List.Lex (· < ·) l₁ l₂
  | [], [] => by simp [charListLt]
  | [], b :: bs => by simp [charListLt]; exact List.Lex.nil
  | a :: as, [] => by simp [charListLt]
  | a :: as, b :: bs => by
    simp only [charListLt]
    rcases lt_trichotomy a b with h | h | h
    · simp [h]; exact List.Lex.rel h
    · subst h
      simp [lt_irrefl, List.Lex.cons_iff, charListLt_iff_lex as bs]
    · rw [if_neg (asymm h), if_pos h]
      constructor
      · intro hfalse; exact absurd hfalse (by simp)
      · intro hlex
        exfalso
        cases hlex with
        | cons h' => exact lt_irrefl a h
        | rel h' => exact asymm h h'

theorem strLt_iff (a b : String) : a < b ↔ charListLt a.data b.data = true := by
  rw [String.lt_iff_toList_lt]
  exact (charListLt_iff_lex a.data b.data).symm

theorem strLe_iff (a b : String) : a ≤ b ↔ charListLt b.data a.data = false := by
  rw [← not_lt, strLt_iff]
  simp

/-! ## VersionID -/

/-- A version identifier is a string (a fixed-width, lexically sortable
timestamp rendering, see `generate_now`). -/
abbrev VersionID := String

/-- Character for one decimal digit. -/
def digitChar : Nat → Char
  | 0 => '0'
  | 1 => '1'
  | 2 => '2'
  | 3 => '3'
  | 4 => '4'
  | 5 => '5'
  | 6 => '6'
  | 7 => '7'
  | 8 => '8'
  | _ => '9'

/-- Width (in decimal digits) of the fixed-width version identifier format. -/
def versionWidth : Nat := 17

/-- Fixed-width big-endian decimal digit rendering of a natural number. -/
def padDigits : Nat → Nat → List Char
  | 0, _ => []
  | w + 1, n => digitChar (n / 10 ^ w) :: padDigits w (n % 10 ^ w)

/-- Modelled from the spec: `VersionID.generate_now` (the versioning core is
not in the available source tree).  Produces a new identifier from the current
instant — here the current UTC time in milliseconds, rendered in a fixed-width,
lexically sortable decimal format. -/
def generate_now (nowMillis : Nat) : VersionID :=
  String.mk (padDigits versionWidth nowMillis)

/-- Modelled from the spec: validity of a version string under the fixed
format (fixed width, all decimal digits). -/
def validVersionID (s : String) : Bool :=
  s.data.length == versionWidth && s.data.all (fun c => c.isDigit)

/-- Modelled from the spec: `VersionID.parse` — `none` plays the role of
`MalformedVersionError` for a candidate not matching the fixed format. -/
def parseVersionID (s : String) : Option VersionID :=
  if validVersionID s then some s else none

theorem digitChar_lt {d₁ d₂ : Nat} (h : d₁ < d₂) (h₂ : d₂ < 10) :
    digitChar d₁ < digitChar d₂ := by
  have hd : ∀ a b : Fin 10, a.val < b.val → digitChar a.val < digitChar b.val := by decide
  exact hd ⟨d₁, lt_trans h h₂⟩ ⟨d₂, h₂⟩ h

theorem padDigits_lex {w m n : Nat} (hm : m < 10 ^ w) (hn : n < 10 ^ w) (h : m < n) :
    List.Lex (· < ·) (padDigits w m) (padDigits w n) := by
  induction w generalizing m n with
  | zero => simp at hm hn; omega
  | succ w ih =>
    have hpos : 0 < 10 ^ w := pow_pos (by norm_num) w
    have hm9 : m / 10 ^ w < 10 := by
      rw [Nat.div_lt_iff_lt_mul hpos]
      calc m < 10 ^ (w + 1) := hm
        _ = 10 * 10 ^ w := by ring
    have hn9 : n / 10 ^ w < 10 := by
      rw [Nat.div_lt_iff_lt_mul hpos]
      calc n < 10 ^ (w + 1) := hn
        _ = 10 * 10 ^ w := by ring
    have hdle : m / 10 ^ w ≤ n / 10 ^ w := Nat.div_le_div_right (le_of_lt h)
    show List.Lex (· < ·)
      (digitChar (m / 10 ^ w) :: padDigits w (m % 10 ^ w))
      (digitChar (n / 10 ^ w) :: padDigits w (n % 10 ^ w))
    rcases Nat.lt_or_ge (m / 10 ^ w) (n / 10 ^ w) with hlt | hge
    · exact List.Lex.rel (digitChar_lt hlt hn9)
    · have heq : m / 10 ^ w = n / 10 ^ w := le_antisymm hdle hge
      rw [heq]
      apply List.Lex.cons
      apply ih (Nat.mod_lt _ hpos) (Nat.mod_lt _ hpos)
      have h₁ := Nat.div_add_mod m (10 ^ w)
      have h₂ := Nat.div_add_mod n (10 ^ w)
      rw [heq] at h₁
      omega

/-! ## Errors, capability interface, version spec -/

/-- Modelled from the spec: the error taxonomy of the versioning core
(`MalformedVersionError`, `NoVersionFoundError`, `VersionCollisionError`). -/
inductive VersionError
  | malformedVersion
  | noVersionFound
  | versionCollision
  deriving DecidableEq, Repr

/-- Modelled from the spec: the narrow `StorageCapability` interface a backend
must provide (the byte-stream operations are out of scope here). -/
structure StorageCapability where
  pathExists : String → Bool
  glob : String → List String

/-- Version specification, mirroring `kedro.io.core.Version`: an optional
pinned load version and an optional pinned save version.  `none` for `load`
means "resolve to latest existing version"; `none` for `save` means "mint a
fresh version at save time". -/
structure Version where
  load : Option VersionID
  save : Option VersionID
  deriving DecidableEq, Repr

/-- Concrete backend location of one version of a dataset:
`base / version / filename`. -/
def resolvedPath (base version filename : String) : String :=
  base ++ "/" ++ version ++ "/" ++ filename

/-! ## VersionResolver (modelled from the spec) -/

/-- Running lexical maximum of a list of strings, starting from `v`.
The comparison `charListLt` coincides with `<` on `String` (`strLt_iff`). -/
def latestFrom (v : String) : List String → String
  | [] => v
  | w :: ws => latestFrom (if charListLt v.data w.data then w else v) ws

/-- Lexical maximum of a list of strings, `none` on the empty list. -/
def latestVersion : List String → Option String
  | [] => none
  | v :: vs => some (latestFrom v vs)

/-- Modelled from the spec: `VersionResolver.resolve_load` restricted to the
choice of version.  If `spec.load` is pinned, use it directly with no
existence pre-check; otherwise list the entries under the base path, keep the
ones parsing as valid VersionIDs, and take the lexical maximum, failing with
`NoVersionFoundError` when no valid version exists. -/
def resolve_load_version (base : String) (vspec : Version) (cap : StorageCapability) :
    Except VersionError VersionID :=
  match vspec.load with
  | some v => .ok v
  | none =>
    match latestVersion ((cap.glob (base ++ "/*")).filterMap parseVersionID) with
    | some v => .ok v
    | none => .error .noVersionFound

/-- Modelled from the spec: `VersionResolver.resolve_load`, building the
concrete path `base / version / filename`. -/
def resolve_load (base : String) (vspec : Version) (cap : StorageCapability)
    (filename : String) : Except VersionError String :=
  (resolve_load_version base vspec cap).map (fun v => resolvedPath base v filename)

/-- Modelled from the spec: the version a save will use — the pinned save
version when present, a freshly minted one otherwise. -/
def save_version (vspec : Version) (nowMillis : Nat) : VersionID :=
  match vspec.save with
  | some v => v
  | none => generate_now nowMillis

/-- Modelled from the spec: `VersionResolver.resolve_save`.  Mints or reuses
the pinned version, then fails with `VersionCollisionError` when the target
path already exists and the version was not explicitly pinned by the caller;
a pinned version is never collision-checked. -/
def resolve_save (base : String) (vspec : Version) (cap : StorageCapability)
    (filename : String) (nowMillis : Nat) : Except VersionError String :=
  let v := save_version vspec nowMillis
  if cap.pathExists (resolvedPath base v filename) && !vspec.save.isSome then
    .error .versionCollision
  else
    .ok (resolvedPath base v filename)

/-! ## VersionedDataHandle (modelled from the spec) -/

/-- Modelled from the spec: the per-dataset `VersionedDataHandle` — a base
path, a filename, an optional pinned version pair, and the cached resolved
load/save versions (at most one each, populated on first success). -/
structure VersionedDataHandle where
  base : String
  filename : String
  vspec : Version
  cachedLoadVersion : Option VersionID
  cachedSaveVersion : Option VersionID
  deriving DecidableEq, Repr

/-- Modelled from the spec: `get_load_path`.  The first successful call
resolves via the resolver and caches the chosen version; subsequent calls
return the cached version without consulting the backend.  Resolution failure
is not cached. -/
def get_load_path (h : VersionedDataHandle) (cap : StorageCapability) :
    Except VersionError (String × VersionedDataHandle) :=
  match h.cachedLoadVersion with
  | some v => .ok (resolvedPath h.base v h.filename, h)
  | none =>
    match resolve_load_version h.base h.vspec cap with
    | .error e => .error e
    | .ok v => .ok (resolvedPath h.base v h.filename, { h with cachedLoadVersion := some v })

/-- Modelled from the spec: `get_save_path`, caching like `get_load_path`. -/
def get_save_path (h : VersionedDataHandle) (cap : StorageCapability) (nowMillis : Nat) :
    Except VersionError (String × VersionedDataHandle) :=
  match h.cachedSaveVersion with
  | some v => .ok (resolvedPath h.base v h.filename, h)
  | none =>
    match resolve_save h.base h.vspec cap h.filename nowMillis with
    | .error e => .error e
    | .ok p => .ok (p, { h with cachedSaveVersion := some (save_version h.vspec nowMillis) })

/-- Modelled from the spec: `exists()` — resolves the load path with the same
caching rule as `get_load_path` and queries the capability; returns `false`
rather than failing when no version exists at all. -/
def handleExists (h : VersionedDataHandle) (cap : StorageCapability) :
    Bool × VersionedDataHandle :=
  match get_load_path h cap with
  | .error _ => (false, h)
  | .ok (p, h') => (cap.pathExists p, h')

/-! ## A concrete backend, for end-to-end save scenarios -/

/-- One stored artifact on the backend, identified by base path, version and
filename. -/
structure Entry where
  base : String
  version : String
  filename : String
  deriving DecidableEq, Repr

/-- A concrete storage backend: the list of stored artifacts. -/
structure Backend where
  entries : List Entry
  deriving DecidableEq, Repr

/-- The `StorageCapability` view of a concrete backend: `pathExists` checks
the stored artifacts by their resolved path, `glob` on `base + "/*"` lists the
version segments stored under `base`. -/
def Backend.cap (b : Backend) : StorageCapability where
  pathExists p := b.entries.any (fun e => resolvedPath e.base e.version e.filename == p)
  glob pat := (b.entries.filter (fun e => e.base ++ "/*" == pat)).map (fun e => e.version)

/-- Modelled from the spec: one complete save against a concrete backend —
resolve the save path (mint or reuse pinned version, collision check), then
store the artifact. -/
def doSave (b : Backend) (base filename : String) (vspec : Version) (nowMillis : Nat) :
    Except VersionError Backend :=
  match resolve_save base vspec b.cap filename nowMillis with
  | .error e => .error e
  | .ok _ => .ok ⟨⟨base, save_version vspec nowMillis, filename⟩ :: b.entries⟩

/-! ## Python dict model (association lists with dict semantics) -/

/-- Keyword-argument dictionaries (`load_args`, `save_args`, `credentials`),
modelled as association lists with string values. -/
abbrev Args := List (String × String)

/-- Lookup of a key in a dict (first matching entry). -/
def lookupArg : Args → String → Option String
  | [], _ => none
  | (k, v) :: rest, key => if k = key then some v else lookupArg rest key

/-- Assignment `d[k] = v` on a dict: replace the entry in place when the key
is present, append it otherwise. -/
def dictSet : Args → String → String → Args
  | [], k, v => [(k, v)]
  | (k', v') :: rest, k, v =>
    if k' = k then (k, v) :: rest else (k', v') :: dictSet rest k v

/-- Python `self.update(other)`: assign every entry of `other` into `self`,
in order. -/
def dictUpdate (self : Args) : Args → Args
  | [] => self
  | (k, v) :: rest => dictUpdate (dictSet self k v) rest

/-! ## PickleS3DataSet (embedded from `kedro/io/pickle_s3.py`) -/

/-- Class-level `DEFAULT_LOAD_ARGS` of `PickleS3DataSet`: the empty dict. -/
def DEFAULT_LOAD_ARGS : Args := []

/-- Class-level `DEFAULT_SAVE_ARGS` of `PickleS3DataSet`: the empty dict. -/
def DEFAULT_SAVE_ARGS : Args := []

/-- Argument handling of `PickleS3DataSet.__init__`: deep-copy the class
defaults, then `update` with the caller-supplied dict when one was given. -/
def mergeArgs (defaults : Args) (callerArgs : Option Args) : Args :=
  match callerArgs with
  | none => defaults
  | some a => dictUpdate defaults a

/-- Configuration state of a constructed `PickleS3DataSet` (the fields set by
`__init__` that later methods read). -/
structure PickleS3DataSet where
  filepath : String
  bucket_name : String
  load_args : Args
  save_args : Args
  version : Option Version
  credentials : Args
  deriving DecidableEq, Repr

/-- Embedding of `PickleS3DataSet.__init__` (configuration part): the stored
file path is `bucket_name/filepath`, the effective load/save options are the
class defaults updated with the caller-supplied dicts, and `credentials`
defaults to the empty dict. -/
def PickleS3DataSet.init (filepath bucket_name : String) (credentials : Option Args)
    (load_args save_args : Option Args) (version : Option Version) : PickleS3DataSet where
  filepath := bucket_name ++ "/" ++ filepath
  bucket_name := bucket_name
  load_args := mergeArgs DEFAULT_LOAD_ARGS load_args
  save_args := mergeArgs DEFAULT_SAVE_ARGS save_args
  version := version
  credentials := credentials.getD []

/-- Value type of the mapping returned by `_describe`. -/
inductive ConfigValue
  | str : String → ConfigValue
  | args : Args → ConfigValue
  | ver : Option Version → ConfigValue
  deriving DecidableEq, Repr

/-- Embedding of `PickleS3DataSet._describe`: the dict of the five
configuration fields. -/
def PickleS3DataSet.describe (ds : PickleS3DataSet) : List (String × ConfigValue) :=
  [("filepath", .str ds.filepath),
   ("bucket_name", .str ds.bucket_name),
   ("load_args", .args ds.load_args),
   ("save_args", .args ds.save_args),
   ("version", .ver ds.version)]

/-- Lookup in the describe mapping. -/
def lookupConfig : List (String × ConfigValue) → String → Option ConfigValue
  | [], _ => none
  | (k, v) :: rest, key => if k = key then some v else lookupConfig rest key

/-- The `_describe` call with the storage backend threaded through as explicit
state: the method touches neither `self._s3` nor the backend, so the embedding
returns the backend unchanged and ignores it. -/
def PickleS3DataSet.describeOp (ds : PickleS3DataSet) (b : Backend) :
    List (String × ConfigValue) × Backend :=
  (ds.describe, b)

/-! ## Embedding of `PickleS3DataSet._save` -/

/-- What `_save` can raise: the explicit `DataSetError` built for
unserializable data, or the original serialization exception re-raised. -/
inductive SaveRaise (SerErr : Type)
  | dataSetError (msg : String)
  | reraised (e : SerErr)
  deriving DecidableEq, Repr

/-- Message of the `DataSetError` raised by `_save` for unserializable
data, built from the class name of the data. -/
def serializationFailMsg (dataClass : String) : String :=
  dataClass ++ " cannot be serialized. PickleS3DataSet can only be used " ++
    "with serializable data"

/-- One object stored on S3: its path and its bytes. -/
structure S3Object (Bytes : Type) where
  path : String
  content : Bytes

/-- Embedding of `PickleS3DataSet._save` after the save path is resolved.
`dumps data args` models `pickle.dumps(data, **args)` (the concrete pickle
encoding is an external collaborator); the stored-object list models the S3
bucket contents.  The source first serialises, and only on success opens the
target and writes; on a serialization failure it retries `pickle.dumps` with
no options to decide between the explicit `DataSetError` and re-raising the
original exception, and the backend is left untouched. -/
def pickleS3_save {Data Bytes SerErr : Type} (dumps : Data → Args → Except SerErr Bytes)
    (dataClass : String) (save_args : Args) (data : Data) (save_path : String)
    (storage : List (S3Object Bytes)) :
    Except (SaveRaise SerErr) Unit × List (S3Object Bytes) :=
  match dumps data save_args with
  | .ok bytes_object => (.ok (), ⟨save_path, bytes_object⟩ :: storage)
  | .error e =>
    match dumps data [] with
    | .error _ => (.error (.dataSetError (serializationFailMsg dataClass)), storage)
    | .ok _ => (.error (.reraised e), storage)

/-! ## Heap model for dict aliasing (`__init__` lines 104-121) -/

/-- A heap of Python dicts: an allocation counter and the contents of every
dict reference. -/
structure Heap where
  next : Nat
  store : Nat → Args

/-- Contents of the dict behind a reference. -/
def Heap.get (h : Heap) (i : Nat) : Args := h.store i

/-- Allocation of a fresh dict with the given contents. -/
def Heap.alloc (h : Heap) (contents : Args) : Nat × Heap :=
  (h.next, ⟨h.next + 1, fun j => if j = h.next then contents else h.store j⟩)

/-- In-place mutation of the dict behind a reference. -/
def Heap.write (h : Heap) (i : Nat) (contents : Args) : Heap :=
  ⟨h.next, fun j => if j = i then contents else h.store j⟩

/-- Python `copy.deepcopy` on a dict of immutable values: allocate a fresh
dict holding the same contents. -/
def Heap.deepcopy (h : Heap) (i : Nat) : Nat × Heap :=
  h.alloc (h.get i)

/-- Heap-level embedding of the `__init__` option handling, for one of the
load/save sides: `self._load_args = copy.deepcopy(self.DEFAULT_LOAD_ARGS)`,
then `self._load_args.update(load_args)` when the caller passed a dict.
`defaultsRef` is the reference to the class-level defaults dict, `callerRef`
the reference to the caller's dict when one was supplied; the result is the
reference held by the new instance and the heap afterwards. -/
def initArgsHeap (h : Heap) (defaultsRef : Nat) (callerRef : Option Nat) : Nat × Heap :=
  let a := h.deepcopy defaultsRef
  match callerRef with
  | none => a
  | some c => (a.1, a.2.write a.1 (dictUpdate (a.2.get a.1) (a.2.get c)))

/-! ## Lemmas about the lexical maximum -/

theorem latestFrom_mem : ∀ (ws : List String) (v : String), latestFrom v ws ∈ v :: ws
  | [], v => by simp [latestFrom]
  | w :: ws, v => by
    simp only [latestFrom]
    by_cases hb : charListLt v.data w.data = true
    · rw [if_pos hb]
      exact List.mem_cons_of_mem v (latestFrom_mem ws w)
    · rw [if_neg hb]
      rcases List.mem_cons.mp (latestFrom_mem ws v) with h1 | h1
      · rw [h1]; exact List.mem_cons_self v _
      · exact List.mem_cons_of_mem v (List.mem_cons_of_mem w h1)

theorem le_latestFrom : ∀ (ws : List String) (v u : String), u ∈ v :: ws → u ≤ latestFrom v ws
  | [], v, u, h => by
    simp at h
    simp [latestFrom, h]
  | w :: ws, v, u, h => by
    simp only [latestFrom]
    by_cases hb : charListLt v.data w.data = true
    · rw [if_pos hb]
      rcases List.mem_cons.mp h with h1 | h1
      · subst h1
        have huw : u ≤ w := le_of_lt ((strLt_iff u w).mpr hb)
        exact le_trans huw (le_latestFrom ws w w (List.mem_cons_self w ws))
      · exact le_latestFrom ws w u h1
    · rw [if_neg hb]
      have hbf : charListLt v.data w.data = false := by
        revert hb; cases charListLt v.data w.data <;> simp
      rcases List.mem_cons.mp h with h1 | h1
      · subst h1
        exact le_latestFrom ws u u (List.mem_cons_self u ws)
      · rcases List.mem_cons.mp h1 with h2 | h2
        · subst h2
          have huv : u ≤ v := (strLe_iff u v).mpr hbf
          exact le_trans huv (le_latestFrom ws v v (List.mem_cons_self v ws))
        · exact le_latestFrom ws v u (List.mem_cons_of_mem v h2)

theorem latestVersion_eq_max {l : List String} {m : String} (hm : m ∈ l)
    (hmax : ∀ v ∈ l, v ≤ m) : latestVersion l = some m := by
  cases l with
  | nil => simp at hm
  | cons v vs =>
    simp only [latestVersion, Option.some.injEq]
    have h1 : latestFrom v vs ≤ m := hmax _ (latestFrom_mem vs v)
    have h2 : m ≤ latestFrom v vs := le_latestFrom vs v m hm
    exact le_antisymm h1 h2

/-! ## Lemmas about the dict operations -/

theorem lookupArg_dictSet_self : ∀ (d : Args) (k v : String),
    lookupArg (dictSet d k v) k = some v
  | [], k, v => by simp [dictSet, lookupArg]
  | (k', v') :: rest, k, v => by
    by_cases h : k' = k
    · simp [dictSet, h, lookupArg]
    · simp [dictSet, h, lookupArg, lookupArg_dictSet_self rest k v]

theorem lookupArg_dictSet_ne : ∀ (d : Args) (k v key : String), key ≠ k →
    lookupArg (dictSet d k v) key = lookupArg d key
  | [], k, v, key, h => by
    simp [dictSet, lookupArg, if_neg (Ne.symm h)]
  | (k', v') :: rest, k, v, key, h => by
    by_cases h1 : k' = k
    · subst h1
      simp [dictSet, lookupArg, if_neg (Ne.symm h)]
    · simp only [dictSet, if_neg h1, lookupArg]
      by_cases h2 : k' = key
      · simp [h2]
      · simp [h2, lookupArg_dictSet_ne rest k v key h]

theorem lookupArg_eq_none : ∀ (d : Args) (key : String), key ∉ d.map Prod.fst →
    lookupArg d key = none
  | [], _, _ => rfl
  | (k, v) :: rest, key, h => by
    simp only [List.map_cons, List.mem_cons, not_or] at h
    simp only [lookupArg, if_neg (Ne.symm h.1)]
    exact lookupArg_eq_none rest key h.2

theorem lookupArg_dictUpdate : ∀ (other self : Args), (other.map Prod.fst).Nodup →
    ∀ key, lookupArg (dictUpdate self other) key =
      match lookupArg other key with
      | some v => some v
      | none => lookupArg self key
  | [], self, _, key => by simp [dictUpdate, lookupArg]
  | (k, v) :: rest, self, hnd, key => by
    simp only [List.map_cons, List.nodup_cons] at hnd
    simp only [dictUpdate]
    rw [lookupArg_dictUpdate rest (dictSet self k v) hnd.2 key]
    by_cases h : key = k
    · subst h
      rw [lookupArg_eq_none rest key hnd.1]
      simp only [lookupArg, if_pos rfl]
      exact lookupArg_dictSet_self self key v
    · simp only [lookupArg, if_neg (Ne.symm h)]
      cases hrest : lookupArg rest key with
      | some w => rfl
      | none => exact lookupArg_dictSet_ne self k v key h

/-! ## Claim theorems -/

/-- C1: for every handle saving without a pinned save version, if the freshly
auto-generated version already exists on the backend then the save fails with
`VersionCollisionError` instead of overwriting; whereas saving twice with the
same explicitly pinned save version does not raise a collision error. -/
theorem save_collision_unpinned_only
    (base filename : String) (lspec : Option VersionID) (cap : StorageCapability)
    (nowMillis : Nat) (cache : Option VersionID) (b : Backend) (v : VersionID)
    (n₁ n₂ : Nat)
    (hex : cap.pathExists (resolvedPath base (generate_now nowMillis) filename) = true) :
    get_save_path ⟨base, filename, ⟨lspec, none⟩, cache, none⟩ cap nowMillis =
      .error .versionCollision ∧
    doSave b base filename ⟨lspec, some v⟩ n₁ =
      .ok ⟨⟨base, v, filename⟩ :: b.entries⟩ ∧
    doSave ⟨⟨base, v, filename⟩ :: b.entries⟩ base filename ⟨lspec, some v⟩ n₂ =
      .ok ⟨⟨base, v, filename⟩ :: ⟨base, v, filename⟩ :: b.entries⟩ := by
  refine ⟨?_, ?_, ?_⟩
  · simp [get_save_path, resolve_save, save_version, hex]
  · simp [doSave, resolve_save, save_version]
  · simp [doSave, resolve_save, save_version]

/-- C2: a second `get_load_path()` on the same handle returns the same
resolved path as the first successful call, whatever happened on the backend
in between (the second call is evaluated against an arbitrary, possibly
different, capability); the cached load version is never invalidated. -/
theorem get_load_path_cache_stable
    (h : VersionedDataHandle) (cap₁ cap₂ : StorageCapability)
    (p : String) (h' : VersionedDataHandle)
    (hfirst : get_load_path h cap₁ = .ok (p, h')) :
    get_load_path h' cap₂ = .ok (p, h') := by
  unfold get_load_path at hfirst ⊢
  cases hc : h.cachedLoadVersion with
  | some v =>
    rw [hc] at hfirst
    simp only [Except.ok.injEq, Prod.mk.injEq] at hfirst
    obtain ⟨rfl, rfl⟩ := hfirst
    rw [hc]
  | none =>
    rw [hc] at hfirst
    cases hres : resolve_load_version h.base h.vspec cap₁ with
    | error e => rw [hres] at hfirst; cases hfirst
    | ok v =>
      rw [hres] at hfirst
      simp only [Except.ok.injEq, Prod.mk.injEq] at hfirst
      obtain ⟨rfl, rfl⟩ := hfirst
      rfl

/-- C3: with no pinned load version, `get_load_path()` resolves to the lexical
maximum of the backend entries that parse as valid VersionIDs (non-parsing
entries are dropped by the filter, never an error), and fails with
`NoVersionFoundError` when no valid version exists. -/
theorem get_load_path_latest
    (base filename : String) (sv : Option VersionID) (cap : StorageCapability) :
    ((cap.glob (base ++ "/*")).filterMap parseVersionID = [] →
      get_load_path ⟨base, filename, ⟨none, sv⟩, none, none⟩ cap =
        .error .noVersionFound) ∧
    (∀ m, m ∈ (cap.glob (base ++ "/*")).filterMap parseVersionID →
      (∀ v ∈ (cap.glob (base ++ "/*")).filterMap parseVersionID, v ≤ m) →
      get_load_path ⟨base, filename, ⟨none, sv⟩, none, none⟩ cap =
        .ok (resolvedPath base m filename, ⟨base, filename, ⟨none, sv⟩, some m, none⟩)) := by
  constructor
  · intro hempty
    simp [get_load_path, resolve_load_version, hempty, latestVersion]
  · intro m hm hmax
    simp [get_load_path, resolve_load_version, latestVersion_eq_max hm hmax]

/-- C4: with `spec.load` pinned to `v`, `get_load_path()` returns exactly
`base/v/filename` for every capability — independent of which versions exist
on the backend and with no existence pre-check at resolution time. -/
theorem get_load_path_pinned
    (base filename : String) (v : VersionID) (sv : Option VersionID)
    (cap : StorageCapability) :
    get_load_path ⟨base, filename, ⟨some v, sv⟩, none, none⟩ cap =
      .ok (resolvedPath base v filename, ⟨base, filename, ⟨some v, sv⟩, some v, none⟩) := by
  simp [get_load_path, resolve_load_version]

/-- C5: two version identifiers generated with the clock advanced by at least
one millisecond compare `a < b` under plain string order — string comparison
of VersionIDs agrees with chronological order at millisecond granularity. -/
theorem generate_now_strictMono
    (t₁ t₂ : Nat) (h₁ : t₁ < 10 ^ versionWidth) (h₂ : t₂ < 10 ^ versionWidth)
    (h : t₁ < t₂) : generate_now t₁ < generate_now t₂ := by
  rw [String.lt_iff_toList_lt]
  show List.Lex (· < ·) (padDigits versionWidth t₁) (padDigits versionWidth t₂)
  exact padDigits_lex h₁ h₂ h

/-- C6: on a base path with zero existing versions, `exists()` returns `false`
rather than an error, while `get_load_path()` in the same situation fails with
`NoVersionFoundError`. -/
theorem exists_false_on_empty
    (base filename : String) (sv : Option VersionID) (cap : StorageCapability)
    (hempty : (cap.glob (base ++ "/*")).filterMap parseVersionID = []) :
    handleExists ⟨base, filename, ⟨none, sv⟩, none, none⟩ cap =
      (false, ⟨base, filename, ⟨none, sv⟩, none, none⟩) ∧
    get_load_path ⟨base, filename, ⟨none, sv⟩, none, none⟩ cap =
      .error .noVersionFound := by
  have hload : get_load_path ⟨base, filename, ⟨none, sv⟩, none, none⟩ cap =
      .error .noVersionFound := by
    simp [get_load_path, resolve_load_version, hempty, latestVersion]
  exact ⟨by simp [handleExists, hload], hload⟩

/-- C7: the handle's effective load/save options are the class defaults merged
with the caller's mapping, caller-supplied keys overriding defaults, and this
merged configuration is what `__init__` stores at construction time (the
caller passing no mapping leaves the defaults as they are). -/
theorem init_args_merged
    (filepath bucket_name : String) (credentials : Option Args)
    (la sa : Args) (version : Option Version)
    (hla : (la.map Prod.fst).Nodup) (hsa : (sa.map Prod.fst).Nodup) :
    (PickleS3DataSet.init filepath bucket_name credentials
        (some la) (some sa) version).load_args = mergeArgs DEFAULT_LOAD_ARGS (some la) ∧
    (PickleS3DataSet.init filepath bucket_name credentials
        (some la) (some sa) version).save_args = mergeArgs DEFAULT_SAVE_ARGS (some sa) ∧
    (∀ defaults : Args, ∀ key,
      lookupArg (mergeArgs defaults (some la)) key =
        match lookupArg la key with
        | some v => some v
        | none => lookupArg defaults key) ∧
    (∀ defaults : Args, ∀ key,
      lookupArg (mergeArgs defaults (some sa)) key =
        match lookupArg sa key with
        | some v => some v
        | none => lookupArg defaults key) ∧
    (∀ defaults : Args, mergeArgs defaults none = defaults) := by
  refine ⟨rfl, rfl, ?_, ?_, fun _ => rfl⟩
  · exact fun defaults key => lookupArg_dictUpdate la defaults hla key
  · exact fun defaults key => lookupArg_dictUpdate sa defaults hsa key

/-- C8: `_describe` returns the mapping of the configured base path (filepath
and bucket name), the load/save options and the pinned version pair if any;
threaded through explicit backend state it neither reads nor changes the
backend, and it is a total function (no failure mode). -/
theorem describe_config_snapshot (ds : PickleS3DataSet) (b b' : Backend) :
    (ds.describeOp b).2 = b ∧
    (ds.describeOp b).1 = (ds.describeOp b').1 ∧
    lookupConfig (ds.describeOp b).1 "filepath" = some (.str ds.filepath) ∧
    lookupConfig (ds.describeOp b).1 "bucket_name" = some (.str ds.bucket_name) ∧
    lookupConfig (ds.describeOp b).1 "load_args" = some (.args ds.load_args) ∧
    lookupConfig (ds.describeOp b).1 "save_args" = some (.args ds.save_args) ∧
    lookupConfig (ds.describeOp b).1 "version" = some (.ver ds.version) := by
  refine ⟨rfl, rfl, ?_, ?_, ?_, ?_, ?_⟩ <;> rfl

/-- C9: when serializing the data with the handle's save options fails,
`_save` raises without writing any bytes to the backend; the raised error is
the explicit `DataSetError` when serializing with no options also fails, and
the original serialization exception re-raised unmodified otherwise. -/
theorem save_serialization_failure
    {Data Bytes SerErr : Type} (dumps : Data → Args → Except SerErr Bytes)
    (dataClass : String) (save_args : Args) (data : Data) (save_path : String)
    (storage : List (S3Object Bytes)) (e : SerErr)
    (hfail : dumps data save_args = .error e) :
    (pickleS3_save dumps dataClass save_args data save_path storage).2 = storage ∧
    (pickleS3_save dumps dataClass save_args data save_path storage).1 =
      .error (match dumps data [] with
        | .error _ => .dataSetError (serializationFailMsg dataClass)
        | .ok _ => .reraised e) ∧
    (∀ bytes, dumps data save_args = .ok bytes →
      pickleS3_save dumps dataClass save_args data save_path storage =
        (.ok (), ⟨save_path, bytes⟩ :: storage)) := by
  refine ⟨?_, ?_, ?_⟩
  · cases hplain : dumps data [] <;> simp [pickleS3_save, hfail, hplain]
  · cases hplain : dumps data [] <;> simp [pickleS3_save, hfail, hplain]
  · intro bytes hok
    rw [hok] at hfail
    cases hfail

/-- C10: constructing a handle never mutates the class-level defaults dict or
the caller's dict (both survive unchanged in the heap), the new instance's
options dict is a fresh reference distinct from both, mutating the caller's
dict afterwards leaves the instance's dict unchanged, and a second
construction allocates yet another distinct reference. -/
theorem init_no_shared_mutable_state
    (h : Heap) (defaultsRef : Nat) (callerRef : Option Nat)
    (hd : defaultsRef < h.next) (hc : ∀ c, callerRef = some c → c < h.next) :
    (initArgsHeap h defaultsRef callerRef).2.get defaultsRef = h.get defaultsRef ∧
    (∀ c, callerRef = some c →
      (initArgsHeap h defaultsRef callerRef).2.get c = h.get c) ∧
    (initArgsHeap h defaultsRef callerRef).1 ≠ defaultsRef ∧
    (∀ c, callerRef = some c → (initArgsHeap h defaultsRef callerRef).1 ≠ c) ∧
    (∀ c contents, callerRef = some c →
      ((initArgsHeap h defaultsRef callerRef).2.write c contents).get
          (initArgsHeap h defaultsRef callerRef).1 =
        (initArgsHeap h defaultsRef callerRef).2.get
          (initArgsHeap h defaultsRef callerRef).1) ∧
    (∀ d₂ c₂, (initArgsHeap (initArgsHeap h defaultsRef callerRef).2 d₂ c₂).1 ≠
      (initArgsHeap h defaultsRef callerRef).1) := by
  have hdne : defaultsRef ≠ h.next := by omega
  cases callerRef with
  | none =>
    refine ⟨?_, ?_, ?_, ?_, ?_, ?_⟩
    · simp [initArgsHeap, Heap.deepcopy, Heap.alloc, Heap.get, hdne]
    · intro c hcc; cases hcc
    · simp [initArgsHeap, Heap.deepcopy, Heap.alloc]; omega
    · intro c hcc; cases hcc
    · intro c contents hcc; cases hcc
    · intro d₂ c₂
      cases c₂ <;> simp [initArgsHeap, Heap.deepcopy, Heap.alloc, Heap.get, Heap.write]
  | some c =>
    have hcn : c < h.next := hc c rfl
    have hcne : c ≠ h.next := by omega
    refine ⟨?_, ?_, ?_, ?_, ?_, ?_⟩
    · simp [initArgsHeap, Heap.deepcopy, Heap.alloc, Heap.get, Heap.write, hdne]
    · intro c' hcc
      cases hcc
      simp [initArgsHeap, Heap.deepcopy, Heap.alloc, Heap.get, Heap.write, hcne]
    · simp [initArgsHeap, Heap.deepcopy, Heap.alloc, Heap.write]; omega
    · intro c' hcc
      cases hcc
      simp [initArgsHeap, Heap.deepcopy, Heap.alloc, Heap.write]; omega
    · intro c' contents hcc
      cases hcc
      simp [initArgsHeap, Heap.deepcopy, Heap.alloc, Heap.get, Heap.write, hcne,
        Ne.symm hcne]
    · intro d₂ c₂
      cases c₂ <;> simp [initArgsHeap, Heap.deepcopy, Heap.alloc, Heap.get, Heap.write]

/-! ## Concrete inputs for the witnesses -/

/-- A backend already holding the version that `generate_now 5` mints. -/
def backendWithMinted : Backend := ⟨[⟨"b", generate_now 5, "f"⟩]⟩

/-- A backend holding one valid version of `b/f`. -/
def backendOne : Backend := ⟨[⟨"b", "00000000000000001", "f"⟩]⟩

/-- The backend after a second, newer version was published. -/
def backendTwo : Backend :=
  ⟨[⟨"b", "00000000000000002", "f"⟩, ⟨"b", "00000000000000001", "f"⟩]⟩

/-- A backend with two valid versions and one non-parsing entry. -/
def backendMixed : Backend :=
  ⟨[⟨"b", "00000000000000002", "f"⟩, ⟨"b", "garbage", "f"⟩,
    ⟨"b", "00000000000000001", "f"⟩]⟩

/-- A backend whose only entry under the base path is not version-shaped. -/
def backendJunk : Backend := ⟨[⟨"b", "junk", "f"⟩]⟩

/-- A serializer stub failing exactly when options are supplied. -/
def dumpsStub (d : Nat) (a : Args) : Except String Nat :=
  if a.isEmpty then .ok d else .error "optfail"

/-- A two-dict heap: reference 0 holds the defaults, reference 1 the caller's
dict. -/
def heapTwoDicts : Heap :=
  ⟨2, fun j => if j = 0 then [("d", "0")] else [("c", "1")]⟩

theorem save_collision_unpinned_only_witness :
    backendWithMinted.cap.pathExists (resolvedPath "b" (generate_now 5) "f") = true ∧
    get_save_path ⟨"b", "f", ⟨none, none⟩, none, none⟩ backendWithMinted.cap 5 =
      .error .versionCollision ∧
    doSave ⟨[]⟩ "b" "f" ⟨none, some "00000000000000001"⟩ 0 =
      .ok ⟨[⟨"b", "00000000000000001", "f"⟩]⟩ ∧
    doSave ⟨[⟨"b", "00000000000000001", "f"⟩]⟩ "b" "f" ⟨none, some "00000000000000001"⟩ 1 =
      .ok ⟨[⟨"b", "00000000000000001", "f"⟩, ⟨"b", "00000000000000001", "f"⟩]⟩ := by
  have happ := save_collision_unpinned_only "b" "f" none backendWithMinted.cap 5 none
    ⟨[]⟩ "00000000000000001" 0 1 (by decide)
  exact ⟨by decide, happ.1, happ.2.1, happ.2.2⟩

theorem get_load_path_cache_stable_witness :
    get_load_path ⟨"b", "f", ⟨none, none⟩, none, none⟩ backendOne.cap =
      .ok ("b/00000000000000001/f",
        ⟨"b", "f", ⟨none, none⟩, some "00000000000000001", none⟩) ∧
    get_load_path ⟨"b", "f", ⟨none, none⟩, some "00000000000000001", none⟩ backendTwo.cap =
      .ok ("b/00000000000000001/f",
        ⟨"b", "f", ⟨none, none⟩, some "00000000000000001", none⟩) := by
  refine ⟨by rfl, ?_⟩
  exact get_load_path_cache_stable ⟨"b", "f", ⟨none, none⟩, none, none⟩
    backendOne.cap backendTwo.cap "b/00000000000000001/f"
    ⟨"b", "f", ⟨none, none⟩, some "00000000000000001", none⟩ (by rfl)

theorem get_load_path_latest_witness :
    ("00000000000000002" : String) ∈
      (backendMixed.cap.glob ("b" ++ "/*")).filterMap parseVersionID ∧
    get_load_path ⟨"b", "f", ⟨none, none⟩, none, none⟩ backendMixed.cap =
      .ok (resolvedPath "b" "00000000000000002" "f",
        ⟨"b", "f", ⟨none, none⟩, some "00000000000000002", none⟩) := by
  refine ⟨by decide, ?_⟩
  have hmax : ∀ v ∈ (backendMixed.cap.glob ("b" ++ "/*")).filterMap parseVersionID,
      v ≤ "00000000000000002" := by
    intro v hv
    have hl : (backendMixed.cap.glob ("b" ++ "/*")).filterMap parseVersionID =
        ["00000000000000002", "00000000000000001"] := by decide
    rw [hl] at hv
    rcases List.mem_cons.mp hv with rfl | hv'
    · exact le_refl _
    · rcases List.mem_cons.mp hv' with rfl | hv''
      · rw [strLe_iff]; decide
      · simp at hv''
  exact (get_load_path_latest "b" "f" none backendMixed.cap).2
    "00000000000000002" (by decide) hmax

theorem generate_now_strictMono_witness :
    (1 : Nat) < 10 ^ versionWidth ∧ (2 : Nat) < 10 ^ versionWidth ∧
    generate_now 1 < generate_now 2 := by
  refine ⟨by norm_num [versionWidth], by norm_num [versionWidth], ?_⟩
  exact generate_now_strictMono 1 2 (by norm_num [versionWidth])
    (by norm_num [versionWidth]) (by norm_num)

theorem exists_false_on_empty_witness :
    (backendJunk.cap.glob ("b" ++ "/*")).filterMap parseVersionID = [] ∧
    handleExists ⟨"b", "f", ⟨none, none⟩, none, none⟩ backendJunk.cap =
      (false, ⟨"b", "f", ⟨none, none⟩, none, none⟩) := by
  refine ⟨by decide, ?_⟩
  exact (exists_false_on_empty "b" "f" none backendJunk.cap (by decide)).1

theorem init_args_merged_witness :
    ((([("k", "1"), ("m", "2")] : Args).map Prod.fst).Nodup) ∧
    lookupArg (mergeArgs [("k", "0"), ("d", "9")] (some [("k", "1"), ("m", "2")])) "k" =
      some "1" ∧
    lookupArg (mergeArgs [("k", "0"), ("d", "9")] (some [("k", "1"), ("m", "2")])) "d" =
      some "9" := by
  have happ := init_args_merged "f" "b" none [("k", "1"), ("m", "2")] [] none
    (by decide) (by decide)
  refine ⟨by decide, ?_, ?_⟩
  · exact (happ.2.2.1 [("k", "0"), ("d", "9")] "k").trans (by decide)
  · exact (happ.2.2.1 [("k", "0"), ("d", "9")] "d").trans (by decide)

theorem save_serialization_failure_witness :
    dumpsStub 3 [("protocol", "5")] = .error "optfail" ∧
    (pickleS3_save dumpsStub "MyClass" [("protocol", "5")] 3 "b/v/f" []).2 = [] ∧
    (pickleS3_save dumpsStub "MyClass" [("protocol", "5")] 3 "b/v/f" []).1 =
      .error (.reraised "optfail") := by
  have happ := save_serialization_failure dumpsStub "MyClass" [("protocol", "5")]
    3 "b/v/f" [] "optfail" (by rfl)
  exact ⟨by rfl, happ.1, happ.2.1.trans (by rfl)⟩

theorem init_no_shared_mutable_state_witness :
    (0 : Nat) < heapTwoDicts.next ∧ (1 : Nat) < heapTwoDicts.next ∧
    (initArgsHeap heapTwoDicts 0 (some 1)).2.get 0 = heapTwoDicts.get 0 ∧
    (initArgsHeap heapTwoDicts 0 (some 1)).2.get 1 = heapTwoDicts.get 1 ∧
    (initArgsHeap heapTwoDicts 0 (some 1)).1 ≠ 0 ∧
    (initArgsHeap heapTwoDicts 0 (some 1)).1 ≠ 1 := by
  have happ := init_no_shared_mutable_state heapTwoDicts 0 (some 1) (by decide)
    (by intro c hcc; cases hcc; decide)
  exact ⟨by decide, by decide, happ.1, happ.2.1 1 rfl, happ.2.2.1, happ.2.2.2.1 1 rfl⟩

end KedroIO
